import Mathlib

/-!
Verification of the KIDzAPP-Familyorganizer bitcoin ledger scripts
(`add_entry.py`, `db_setup.py`, `generate_chart.py`) against their
natural-language specification.

Shallow embedding conventions:
* A row of the SQLite table `entries` (schema in `db_setup.py`) is a `Row`.
  The `id` column (INTEGER PRIMARY KEY AUTOINCREMENT) and the `timestamp`
  column (DATETIME DEFAULT CURRENT_TIMESTAMP) are both assigned by the store
  at insert time; we model the wall clock as a `Nat` counter held in the
  store, which advances at each insert, so timestamps assigned by the store
  are monotone, as they are for a monotone real-time clock.
* The database file on disk is a `Storage`: `absent` (no file),
  `unreadable` (a file whose `entries` table cannot be read: missing table
  or corrupt file), or `db s` (a readable database holding store `s`).
* Python float arithmetic on prices is modelled exactly over `ℚ` (true
  division `/` of Python is rational division here).
* Fallible operations return `Bool` success flags or `Option`, exactly as
  the Python functions return `True`/`False`/`None`.
-/

/-- One row of the `entries` table (`db_setup.py`, CREATE TABLE entries). -/
structure Row where
  id : Nat
  timestamp : Nat
  verdiente_satoshi : Int
  btc_eur_preis : ℚ
  gesamt_satoshi_bis_dahin : Int
  euro_wert : ℚ
deriving Repr, DecidableEq

/-- The readable content of the database: the rows of `entries` in insertion
order, plus the store clock used to assign `timestamp` values. -/
structure Store where
  rows : List Row
  clock : Nat
deriving Repr, DecidableEq

/-- A freshly initialized database (`setup_database` on a missing file):
the `entries` table exists and has no rows. -/
def emptyStore : Store := ⟨[], 0⟩

/-- The state of the database file on disk. -/
inductive Storage where
  | absent : Storage
  | unreadable : Storage
  | db : Store → Storage
deriving Repr, DecidableEq

/-- The id AUTOINCREMENT assigns to the next inserted row: one more than the
largest id ever used (with the ledger append-only, the largest present id;
`1` on an empty table). -/
def nextId (rows : List Row) : Nat :=
  rows.foldr (fun r m => max r.id m) 0 + 1

/-- The row returned by `SELECT ... ORDER BY id DESC LIMIT 1`: the row with
the greatest id, `none` on an empty table. -/
def maxIdRow : List Row → Option Row
  | [] => none
  | r :: rs =>
    match maxIdRow rs with
    | none => some r
    | some m => if r.id ≤ m.id then some m else some r

/-- `get_last_total_satoshi` (`add_entry.py`): reads
`gesamt_satoshi_bis_dahin` of the max-id row; `fetchone` returning no row
gives `0`, and the bare `except:` maps any read error (missing file — whose
`sqlite3.connect` creates an empty no-table file, a side effect outside this
pure read model — missing table, corrupt file) to `0` as well. -/
def get_last_total_satoshi (st : Storage) : Int :=
  match st with
  | .db s =>
    match maxIdRow s.rows with
    | some r => r.gesamt_satoshi_bis_dahin
    | none => 0
  | _ => 0

/-- The successful write path of `add_entry` (`add_entry.py`): compute the
new cumulative total from `get_last_total_satoshi`, the euro value
`(gesamt_satoshi / 100_000_000) * btc_price`, and INSERT one row, whose `id`
and `timestamp` the store assigns. -/
def insertRowDb (s : Store) (verdiente_satoshi : Int) (btc_price : ℚ) : Store :=
  let last_total := get_last_total_satoshi (.db s)
  let gesamt_satoshi := last_total + verdiente_satoshi
  let euro_wert := (gesamt_satoshi : ℚ) / 100000000 * btc_price
  ⟨s.rows ++ [⟨nextId s.rows, s.clock, verdiente_satoshi, btc_price,
      gesamt_satoshi, euro_wert⟩],
    s.clock + 1⟩

/-- `add_entry` (`add_entry.py`). `price` is the result of
`get_btc_price_eur()` (`none` when the fetch failed). On `none` it returns
`False` before touching storage. Otherwise it reads the last total, computes
the new cumulative total and euro value, and INSERTs. The INSERT on an
`absent` file first creates an empty file (`sqlite3.connect`) and then fails
for want of the `entries` table; on an `unreadable` file it fails; both are
caught and reported as `False`. -/
def add_entry (price : Option ℚ) (st : Storage) (verdiente_satoshi : Int) :
    Bool × Storage :=
  match price with
  | none => (false, st)
  | some p =>
    match st with
    | .db s => (true, .db (insertRowDb s verdiente_satoshi p))
    | .absent => (false, .unreadable)
    | .unreadable => (false, .unreadable)

/-- Insertion (by ascending `id`) of a row into an id-sorted list; helper
for the semantics of `ORDER BY id ASC`. -/
def insById (r : Row) : List Row → List Row
  | [] => [r]
  | x :: xs => if r.id ≤ x.id then r :: x :: xs else x :: insById r xs

/-- The row sequence returned by `SELECT ... ORDER BY id ASC`: the rows
sorted by ascending id. -/
def sortById (l : List Row) : List Row := l.foldr insById []

/-- `load_data` (`generate_chart.py`): `SELECT timestamp, euro_wert,
btc_eur_preis FROM entries ORDER BY id ASC`; returns `None` when the table
has no rows (printing a no-data message) and `None` on any read error
(missing table, corrupt file; on a missing file `sqlite3.connect` creates an
empty no-table file — a side effect outside this pure read model — and the
SELECT then fails). -/
def load_data (st : Storage) : Option (List (Nat × ℚ × ℚ)) :=
  match st with
  | .absent => none
  | .unreadable => none
  | .db s =>
    let rows := (sortById s.rows).map fun r =>
      (r.timestamp, r.euro_wert, r.btc_eur_preis)
    if rows.isEmpty then none else some rows

/-- The observable outcome of the report command. -/
inductive ReportResult where
  | noData : ReportResult
  | chart : List (Nat × ℚ × ℚ) → ReportResult
deriving Repr, DecidableEq

/-- `main` of `generate_chart.py`: if the database file does not exist,
print and stop; otherwise `load_data`, and only when it returns rows call
`generate_chart` (which renders the rows to the chart file). The storage is
only read, so it is returned unchanged, and on the no-data paths no chart
file is produced. -/
def generate_chart_main (st : Storage) : ReportResult × Storage :=
  match st with
  | .absent => (.noData, .absent)
  | st' =>
    match load_data st' with
    | none => (.noData, st')
    | some rows => (.chart rows, st')

/-- The CLI argument of the record command, as `main` of `add_entry.py`
classifies it: missing (argc ≠ 2), not parseable by `int(...)`, or an
integer value. -/
inductive CliArg where
  | missing : CliArg
  | notAnInt : CliArg
  | val : Int → CliArg
deriving Repr, DecidableEq

/-- `setup_database` as invoked by `main` of `add_entry.py`: called only
when the database file does not exist; creates the file with the (empty)
`entries` table. -/
def ensure_db (st : Storage) : Storage :=
  match st with
  | .absent => .db emptyStore
  | st' => st'

/-- `main` of `add_entry.py`: exit code 1 (modelled as `none`) with a usage
or validation message when the argument is missing, non-integer, or
non-positive — all before any storage access; otherwise ensure the database
file exists and run `add_entry`, returning its success flag. -/
def record_main (arg : CliArg) (price : Option ℚ) (st : Storage) :
    Option Bool × Storage :=
  match arg with
  | .missing => (none, st)
  | .notAnInt => (none, st)
  | .val n =>
    if n ≤ 0 then (none, st)
    else
      let st1 := ensure_db st
      let (ok, st2) := add_entry price st1 n
      (some ok, st2)

/-- Run a sequence of recordings `(earned, price)` (all price fetches
successful) starting from a fresh empty database. -/
def runEntries (ops : List (Int × ℚ)) : Storage :=
  ops.foldl (fun st op => (add_entry (some op.2) st op.1).2)
    (Storage.db emptyStore)

/-- The storage after the end-to-end scenario of §8 of the spec: from a
fresh empty store, record 1500 satoshi at price 50000, then 2500 satoshi at
price 60000. -/
def scenarioStore : Storage := runEntries [(1500, 50000), (2500, 60000)]

/-- Well-formedness of a readable store: ids strictly increase and
timestamps are nondecreasing along insertion order, and every timestamp is
below the store clock. -/
def WF (s : Store) : Prop :=
  s.rows.Pairwise (fun a b => a.id < b.id ∧ a.timestamp ≤ b.timestamp) ∧
  ∀ r ∈ s.rows, r.timestamp < s.clock

/-- Stores reachable from a fresh empty database by successful recordings. -/
inductive ReachableStore : Store → Prop
  | empty : ReachableStore emptyStore
  | step {s : Store} (v : Int) (p : ℚ) :
      ReachableStore s → ReachableStore (insertRowDb s v p)

/-! ### Helper lemmas -/

theorem mem_le_foldrMax (l : List Row) : ∀ r ∈ l, r.id ≤ l.foldr (fun x m => max x.id m) 0 := by
  induction l with
  | nil => intro r h; cases h
  | cons x xs ih =>
    intro r h
    rcases List.mem_cons.mp h with h1 | h1
    · subst h1; exact le_max_left _ _
    · exact le_trans (ih r h1) (le_max_right _ _)

theorem id_lt_nextId (l : List Row) (r : Row) (h : r ∈ l) : r.id < nextId l :=
  Nat.lt_succ_of_le (mem_le_foldrMax l r h)

theorem maxIdRow_append (l : List Row) (r : Row) (h : ∀ x ∈ l, x.id < r.id) :
    maxIdRow (l ++ [r]) = some r := by
  induction l with
  | nil => rfl
  | cons x xs ih =>
    have hx : x.id < r.id := h x (List.mem_cons_self x xs)
    have ih' := ih (fun y hy => h y (List.mem_cons_of_mem x hy))
    simp [maxIdRow, ih', Nat.le_of_lt hx]

theorem rows_insertRowDb (s : Store) (v : Int) (p : ℚ) :
    (insertRowDb s v p).rows = s.rows ++
      [⟨nextId s.rows, s.clock, v, p, get_last_total_satoshi (.db s) + v,
        ((get_last_total_satoshi (.db s) + v : ℤ) : ℚ) / 100000000 * p⟩] := rfl

theorem get_last_total_insertRowDb (s : Store) (v : Int) (p : ℚ) :
    get_last_total_satoshi (.db (insertRowDb s v p)) =
      get_last_total_satoshi (.db s) + v := by
  show (match maxIdRow (insertRowDb s v p).rows with
    | some r => r.gesamt_satoshi_bis_dahin
    | none => 0) = _
  rw [rows_insertRowDb, maxIdRow_append _ _ (fun x hx => id_lt_nextId s.rows x hx)]

theorem WF_insertRowDb {s : Store} (h : WF s) (v : Int) (p : ℚ) :
    WF (insertRowDb s v p) := by
  obtain ⟨h1, h2⟩ := h
  constructor
  · rw [rows_insertRowDb]
    apply List.pairwise_append.mpr
    refine ⟨h1, List.pairwise_singleton _ _, ?_⟩
    intro a ha b hb
    simp only [List.mem_singleton] at hb
    subst hb
    exact ⟨id_lt_nextId s.rows a ha, le_of_lt (h2 a ha)⟩
  · intro r hr
    rw [rows_insertRowDb] at hr
    show r.timestamp < s.clock + 1
    rcases List.mem_append.mp hr with h | h
    · exact lt_trans (h2 r h) (Nat.lt_succ_self _)
    · simp only [List.mem_singleton] at h; subst h; exact Nat.lt_succ_self _

theorem reachable_WF {s : Store} (h : ReachableStore s) : WF s := by
  induction h with
  | empty => exact ⟨List.Pairwise.nil, fun r hr => absurd hr (List.not_mem_nil r)⟩
  | step v p _ ih => exact WF_insertRowDb ih v p

theorem sortById_eq_self (l : List Row) (h : l.Pairwise (fun a b => a.id < b.id)) :
    sortById l = l := by
  induction l with
  | nil => rfl
  | cons x xs ih =>
    obtain ⟨h1, h2⟩ := List.pairwise_cons.mp h
    have hs : sortById xs = xs := ih h2
    show insById x (sortById xs) = x :: xs
    rw [hs]
    cases xs with
    | nil => rfl
    | cons y ys =>
      have : x.id ≤ y.id := le_of_lt (h1 y (List.mem_cons_self y ys))
      simp [insById, this]

theorem maxIdRow_eq_getLast {s : Store} (h : ReachableStore s) :
    maxIdRow s.rows = s.rows.getLast? := by
  induction h with
  | empty => rfl
  | step v p hr ih =>
    rw [rows_insertRowDb, maxIdRow_append _ _ (fun x hx => id_lt_nextId _ x hx)]
    rw [List.getLast?_concat]

/-- Running cumulative totals of a list of earned amounts, starting from a
previous total `a`; the recurrence form of the ledger invariant. -/
def cumulFrom (a : Int) : List Int → List Int
  | [] => []
  | e :: es => (a + e) :: cumulFrom (a + e) es

theorem cumulFrom_eq (a : Int) (es : List Int) :
    cumulFrom a es = (List.range es.length).map (fun k => a + (es.take (k + 1)).sum) := by
  induction es generalizing a with
  | nil => rfl
  | cons e es ih =>
    rw [cumulFrom, List.length_cons, List.range_succ_eq_map, List.map_cons, ih]
    simp [List.map_map, Function.comp, add_assoc]

theorem runEntries_db (ops : List (Int × ℚ)) (s : Store) :
    ops.foldl (fun st op => (add_entry (some op.2) st op.1).2) (Storage.db s) =
      Storage.db (ops.foldl (fun t op => insertRowDb t op.1 op.2) s) := by
  induction ops generalizing s with
  | nil => rfl
  | cons op ops ih =>
    rw [List.foldl_cons, List.foldl_cons]
    exact ih (insertRowDb s op.1 op.2)

theorem foldl_insert_gesamt (ops : List (Int × ℚ)) (s : Store) :
    ((ops.foldl (fun t op => insertRowDb t op.1 op.2) s).rows).map
        (fun r => r.gesamt_satoshi_bis_dahin) =
      s.rows.map (fun r => r.gesamt_satoshi_bis_dahin) ++
        cumulFrom (get_last_total_satoshi (Storage.db s)) (ops.map Prod.fst) := by
  induction ops generalizing s with
  | nil => simp [cumulFrom]
  | cons op ops ih =>
    rw [List.foldl_cons, ih, List.map_cons, cumulFrom, rows_insertRowDb,
      List.map_append, get_last_total_insertRowDb]
    simp

/-- The store resulting from a sequence of successful recordings, starting
from a fresh empty database (the readable content of `runEntries`). -/
def runStore (ops : List (Int × ℚ)) : Store :=
  ops.foldl (fun t op => insertRowDb t op.1 op.2) emptyStore

/-! ### Claim theorems -/

/-- Claim C1: for every sequence of recordings with earned amounts
`e_1..e_n` starting from an empty ledger (all price fetches successful),
the `gesamt_satoshi_bis_dahin` (cumulative_units) stored in entry `k`
equals `e_1 + ... + e_k`. Stated for all integer amounts, hence in
particular for all positive ones. -/
theorem cumulative_sum_spec (ops : List (Int × ℚ)) :
    runEntries ops = Storage.db (runStore ops) ∧
    (runStore ops).rows.map (fun r => r.gesamt_satoshi_bis_dahin) =
      (List.range ops.length).map
        (fun k => ((ops.map Prod.fst).take (k + 1)).sum) := by
  constructor
  · exact runEntries_db ops emptyStore
  · rw [runStore, foldl_insert_gesamt, cumulFrom_eq]
    simp [emptyStore, get_last_total_satoshi, maxIdRow]

/-- Claim C2: every successful `add_entry` with earned units `v` and fetched
price `p` appends one row whose `euro_wert` (fiat_value) equals
`(gesamt_satoshi_bis_dahin / 100_000_000) * p`, where
`gesamt_satoshi_bis_dahin` is the new cumulative total; and the §8
end-to-end scenario (1500 at price 50000, then 2500 at price 60000) yields
cumulative totals 1500 and 4000 with fiat values 0.75 and 2.4. -/
theorem fiat_value_spec :
    (∀ (s : Store) (v : Int) (p : ℚ), ∃ r : Row,
        add_entry (some p) (Storage.db s) v =
          (true, Storage.db ⟨s.rows ++ [r], s.clock + 1⟩) ∧
        r.gesamt_satoshi_bis_dahin = get_last_total_satoshi (Storage.db s) + v ∧
        r.euro_wert = (r.gesamt_satoshi_bis_dahin : ℚ) / 100000000 * p) ∧
    scenarioStore = Storage.db ⟨[⟨1, 0, 1500, 50000, 1500, 3 / 4⟩,
      ⟨2, 1, 2500, 60000, 4000, 12 / 5⟩], 2⟩ ∧
    (3 / 4 : ℚ) = 0.75 ∧ (12 / 5 : ℚ) = 2.4 := by
  refine ⟨fun s v p => ⟨_, rfl, rfl, rfl⟩, ?_, by norm_num, by norm_num⟩
  norm_num [scenarioStore, runEntries, add_entry, insertRowDb,
    get_last_total_satoshi, maxIdRow, nextId, emptyStore]

/-- Claim C3: when the price fetch returns `None`, `add_entry` returns
`False` and the persisted state — whatever it is: absent, unreadable, or any
database content — is left completely unchanged; no row, not even a partial
one, is written. -/
theorem price_absent_no_write :
    ∀ (st : Storage) (v : Int), add_entry none st v = (false, st) :=
  fun _ _ => rfl

/-- Claim C4: `get_last_total_satoshi` returns the
`gesamt_satoshi_bis_dahin` of the most recently inserted row (for every
reachable store, the max-id row it reads is the last-inserted row), returns
`0` on an empty ledger, and maps any read error (absent file, unreadable
table) to `0` instead of failing; after the §8 two-entry scenario it
returns 4000. -/
theorem last_total_spec :
    (∀ s : Store, ReachableStore s →
        get_last_total_satoshi (Storage.db s) =
          ((s.rows.getLast?).map (fun r => r.gesamt_satoshi_bis_dahin)).getD 0) ∧
    get_last_total_satoshi Storage.absent = 0 ∧
    get_last_total_satoshi Storage.unreadable = 0 ∧
    get_last_total_satoshi (Storage.db emptyStore) = 0 ∧
    get_last_total_satoshi scenarioStore = 4000 := by
  refine ⟨?_, rfl, rfl, rfl, by decide⟩
  intro s h
  show (match maxIdRow s.rows with
    | some r => r.gesamt_satoshi_bis_dahin
    | none => 0) = _
  rw [maxIdRow_eq_getLast h]
  cases s.rows.getLast? with
  | none => rfl
  | some r => rfl

/-- Witness for `last_total_spec`: on the concrete empty store, which is
reachable, the last cumulative total is the default `0`. -/
theorem last_total_spec_witness :
    get_last_total_satoshi (Storage.db emptyStore) =
      ((emptyStore.rows.getLast?).map (fun r => r.gesamt_satoshi_bis_dahin)).getD 0 :=
  last_total_spec.1 emptyStore ReachableStore.empty

/-- Claim C5: the record command with a missing, non-integer, or
non-positive argument exits with code 1 (modelled as result `none`) and
mutates no persisted state: the storage — including an absent database
file, which then stays absent — is returned unchanged. -/
theorem invalid_arg_no_mutation :
    ∀ (price : Option ℚ) (st : Storage),
      record_main CliArg.missing price st = (none, st) ∧
      record_main CliArg.notAnInt price st = (none, st) ∧
      ∀ n : Int, n ≤ 0 → record_main (CliArg.val n) price st = (none, st) := by
  intro price st
  refine ⟨rfl, rfl, fun n hn => ?_⟩
  simp [record_main, hn]

/-- Witness for `invalid_arg_no_mutation`: the concrete non-positive amount
`0` on an absent database exits without creating the file. -/
theorem invalid_arg_no_mutation_witness :
    record_main (CliArg.val 0) (some 50000) Storage.absent = (none, Storage.absent) :=
  (invalid_arg_no_mutation (some 50000) Storage.absent).2.2 0 (le_refl 0)

/-- Counterexample to claim C6 as stated: on a ledger with no rows,
`load_data` does not return an empty sequence — it returns `None` (after
printing a no-data message). -/
theorem load_data_empty_counterexample :
    load_data (Storage.db emptyStore) = none ∧
    load_data (Storage.db emptyStore) ≠ some [] := by
  constructor
  · rfl
  · intro h
    exact Option.noConfusion h

/-- Claim C6 (amended): on every reachable store, `load_data` returns every
row of the ledger in insertion order — which is ascending `id` order and
nondecreasing `timestamp` order — projected to
`(timestamp, euro_wert, btc_eur_preis)`; but when the ledger has no rows it
returns `None` (a no-data signal), not an empty sequence. -/
theorem load_data_ordered {s : Store} (h : ReachableStore s) :
    load_data (Storage.db s) =
      (if s.rows.isEmpty then none
       else some (s.rows.map fun r => (r.timestamp, r.euro_wert, r.btc_eur_preis))) ∧
    s.rows.Pairwise (fun a b => a.id < b.id ∧ a.timestamp ≤ b.timestamp) := by
  have hwf := reachable_WF h
  have hsort := sortById_eq_self s.rows (hwf.1.imp (fun hc => hc.1))
  refine ⟨?_, hwf.1⟩
  show (let rows := (sortById s.rows).map fun r =>
      (r.timestamp, r.euro_wert, r.btc_eur_preis)
    if rows.isEmpty then none else some rows) = _
  rw [hsort]
  cases s.rows with
  | nil => rfl
  | cons x xs => rfl

/-- Witness for `load_data_ordered`: instantiated at the concrete reachable
empty store. -/
theorem load_data_ordered_witness :
    load_data (Storage.db emptyStore) =
      (if emptyStore.rows.isEmpty then none
       else some (emptyStore.rows.map fun r =>
        (r.timestamp, r.euro_wert, r.btc_eur_preis))) ∧
    emptyStore.rows.Pairwise (fun a b => a.id < b.id ∧ a.timestamp ≤ b.timestamp) :=
  load_data_ordered ReachableStore.empty

/-- Claim C7: the report command on an empty ledger — a table with no rows,
or no database file at all — reports no data, produces no chart, and leaves
the storage unchanged. -/
theorem empty_report_no_chart :
    (∀ s : Store, s.rows = [] →
        generate_chart_main (Storage.db s) = (ReportResult.noData, Storage.db s)) ∧
    generate_chart_main Storage.absent = (ReportResult.noData, Storage.absent) := by
  refine ⟨?_, rfl⟩
  intro s hs
  simp [generate_chart_main, load_data, sortById, hs]

/-- Witness for `empty_report_no_chart`: the concrete empty store. -/
theorem empty_report_no_chart_witness :
    generate_chart_main (Storage.db emptyStore) =
      (ReportResult.noData, Storage.db emptyStore) :=
  empty_report_no_chart.1 emptyStore rfl

/-- Claim C8: the ledger is append-only. Every successful `add_entry`
produces exactly the old rows plus one new row (length grows by one, and
the old rows — with their frozen `euro_wert` values — form an unchanged
prefix of the new rows); the report path only reads the storage; and a
failed `add_entry` (price absent) changes nothing. `get_last_total_satoshi`
and `load_data` are pure reads by construction. -/
theorem append_only_spec :
    (∀ (s : Store) (v : Int) (p : ℚ),
        add_entry (some p) (Storage.db s) v = (true, Storage.db (insertRowDb s v p)) ∧
        (insertRowDb s v p).rows.length = s.rows.length + 1 ∧
        (insertRowDb s v p).rows.take s.rows.length = s.rows) ∧
    (∀ st : Storage, (generate_chart_main st).2 = st) ∧
    (∀ (st : Storage) (v : Int), (add_entry none st v).2 = st) := by
  refine ⟨?_, ?_, fun _ _ => rfl⟩
  · intro s v p
    refine ⟨rfl, ?_, ?_⟩
    · rw [rows_insertRowDb]; simp
    · rw [rows_insertRowDb]; exact List.take_left _ _
  · intro st
    cases st with
    | absent => rfl
    | unreadable =>
      show (match load_data Storage.unreadable with
        | none => (ReportResult.noData, Storage.unreadable)
        | some rows => (ReportResult.chart rows, Storage.unreadable)).2 = _
      rfl
    | db s =>
      show (match load_data (Storage.db s) with
        | none => (ReportResult.noData, Storage.db s)
        | some rows => (ReportResult.chart rows, Storage.db s)).2 = _
      cases load_data (Storage.db s) with
      | none => rfl
      | some rows => rfl

/-- Claim C9: `add_entry` itself performs no positivity validation: for
every integer `v` — zero and negative included — a direct call with a
successful price fetch appends a row with `verdiente_satoshi = v` and
cumulative total `last + v`. Concretely, recording 100 and then -50
satoshi makes the cumulative total drop from 100 to 50. -/
theorem add_entry_no_validation :
    (∀ (s : Store) (v : Int) (p : ℚ),
        add_entry (some p) (Storage.db s) v =
          (true, Storage.db ⟨s.rows ++
            [⟨nextId s.rows, s.clock, v, p, get_last_total_satoshi (Storage.db s) + v,
              ((get_last_total_satoshi (Storage.db s) + v : ℤ) : ℚ) / 100000000 * p⟩],
            s.clock + 1⟩)) ∧
    get_last_total_satoshi
      ((add_entry (some 1) (Storage.db emptyStore) 100).2) = 100 ∧
    get_last_total_satoshi
      ((add_entry (some 1)
        ((add_entry (some 1) (Storage.db emptyStore) 100).2) (-50)).2) = 50 := by
  refine ⟨fun s v p => rfl, by decide, by decide⟩

/-- Claim C10: `load_data` maps any storage read error to `None`, so the
report path never raises on storage failure and produces no chart there;
at the report's observable output an unreadable ledger is indistinguishable
from an empty one. -/
theorem report_error_silent :
    load_data Storage.unreadable = none ∧
    load_data Storage.absent = none ∧
    generate_chart_main Storage.unreadable = (ReportResult.noData, Storage.unreadable) ∧
    (generate_chart_main Storage.unreadable).1 =
      (generate_chart_main (Storage.db emptyStore)).1 :=
  ⟨rfl, rfl, rfl, rfl⟩
